import Mathlib

/-!
Verification of the subspace-cli process-orchestration core.

Shallow embedding of `src/subspace/core/runner.py` and
`src/subspace/core/commands.py`.  Pure functions are translated directly;
subprocess supervision is modelled by explicit timed output traces; the
Python standard library (`json.loads`, `str.strip`, `str.replace`,
`re.match`) is modelled by faithful Lean counterparts, including the
CPython `re` rule that `$` also matches just before one trailing newline.
-/

namespace Subspace

/-! ### Python string primitives -/

/-- Python `str.strip()` whitespace set (the six ASCII whitespace chars). -/
def isPySpace (c : Char) : Bool :=
  c = ' ' || c = '\t' || c = '\n' || c = '\r' || c = '\x0b' || c = '\x0c'

/-- `str.strip()` on the underlying character list. -/
def pyStripL (l : List Char) : List Char :=
  ((l.dropWhile isPySpace).reverse.dropWhile isPySpace).reverse

/-- Python `str.strip()`. -/
def pyStrip (s : String) : String := ⟨pyStripL s.data⟩

/-- Python `pre in s` / `startswith` on lists: `pat` occurs as a contiguous
sublist of `s`. -/
def containsSubL (pat : List Char) : List Char → Bool
  | [] => pat.isEmpty
  | c :: rest => pat.isPrefixOf (c :: rest) || containsSubL pat rest

/-- One step of Python `str.replace` (leftmost, non-overlapping), with
structural fuel so the kernel can evaluate it.  Fuel `s.length` is always
enough because every recursive call drops at least one character. -/
def replaceFuel (pat rep : List Char) : Nat → List Char → List Char
  | 0, s => s
  | fuel + 1, s =>
    match s with
    | [] => []
    | c :: rest =>
      if !pat.isEmpty && pat.isPrefixOf s then
        rep ++ replaceFuel pat rep fuel (s.drop pat.length)
      else
        c :: replaceFuel pat rep fuel rest

/-- Python `s.replace(pat, rep)` for non-empty `pat` (the only patterns the
source ever passes are `"$@"` and `"$<i>"`; for empty `pat` Python would
interleave `rep`, a case never reached here and modelled as identity). -/
def pyReplace (s pat rep : String) : String :=
  ⟨replaceFuel pat.data rep.data s.data.length s.data⟩

/-! ### Decimal rendering of a natural number (Python f-string `{n}`) -/

/-- The ten decimal digit characters. -/
def decDigitChar : Nat → Char
  | 0 => '0' | 1 => '1' | 2 => '2' | 3 => '3' | 4 => '4'
  | 5 => '5' | 6 => '6' | 7 => '7' | 8 => '8' | 9 => '9'
  | _ => '?'

/-- Little-endian decimal digits of `n`, with structural fuel. -/
def decDigitsFuel : Nat → Nat → List Char
  | 0, _ => []
  | _ + 1, 0 => []
  | fuel + 1, n => decDigitChar (n % 10) :: decDigitsFuel fuel (n / 10)

/-- Little-endian digit list of `n` (`['0']` for zero). -/
def decLE (n : Nat) : List Char :=
  if n = 0 then ['0'] else decDigitsFuel n n

/-- Decimal rendering of `n`, as produced by a Python f-string. -/
def decRepr (n : Nat) : String := ⟨(decLE n).reverse⟩

/-- Value of a decimal digit character. -/
def digitVal (c : Char) : Nat := c.toNat - 48

/-- Value of a little-endian digit list. -/
def decValLE : List Char → Nat
  | [] => 0
  | c :: rest => digitVal c + 10 * decValLE rest

theorem digitVal_decDigitChar {d : Nat} (h : d < 10) :
    digitVal (decDigitChar d) = d := by
  interval_cases d <;> rfl

theorem decValLE_decDigitsFuel : ∀ fuel n, n ≤ fuel →
    decValLE (decDigitsFuel fuel n) = n := by
  intro fuel
  induction fuel with
  | zero =>
    intro n hn
    have hz : n = 0 := by omega
    subst hz; rfl
  | succ f ih =>
    intro n hn
    match n with
    | 0 => simp [decDigitsFuel, decValLE]
    | m + 1 =>
      have hlt : (m + 1) / 10 < m + 1 := Nat.div_lt_self (by omega) (by omega)
      have h10 : (m + 1) % 10 < 10 := Nat.mod_lt _ (by omega)
      simp only [decDigitsFuel, decValLE]
      rw [digitVal_decDigitChar h10, ih ((m + 1) / 10) (by omega)]
      omega

theorem decValLE_decLE (n : Nat) : decValLE (decLE n) = n := by
  by_cases h : n = 0
  · subst h; rfl
  · simp only [decLE, if_neg h]
    exact decValLE_decDigitsFuel n n (Nat.le_refl n)

theorem decLE_injective {n m : Nat} (h : decLE n = decLE m) : n = m := by
  have := decValLE_decLE n
  rw [h, decValLE_decLE] at this
  omega

theorem decDigitChar_ne_hyphen (d : Nat) : decDigitChar d ≠ '-' := by
  unfold decDigitChar
  split <;> decide

theorem hyphen_not_mem_decDigitsFuel : ∀ fuel n, '-' ∉ decDigitsFuel fuel n := by
  intro fuel
  induction fuel with
  | zero => intro n; simp [decDigitsFuel]
  | succ f ih =>
    intro n
    match n with
    | 0 => simp [decDigitsFuel]
    | m + 1 =>
      simp only [decDigitsFuel, List.mem_cons, not_or]
      exact ⟨fun hc => decDigitChar_ne_hyphen _ hc.symm, ih _⟩

theorem hyphen_not_mem_decLE (n : Nat) : '-' ∉ decLE n := by
  by_cases h : n = 0
  · subst h; decide
  · simp only [decLE, if_neg h]
    exact hyphen_not_mem_decDigitsFuel n n

/-! ### JSON values and the event extractor (`extract_agent_messages`)

`json.loads` is the Python standard library, external to this repository;
its possible outcomes on one stripped line are modelled by `JsonLine`:
the line strips to empty (`blank`), it is non-blank but not valid JSON
(`malformed`), or it parses to the JSON value `v` (`parsed v`). -/

inductive JValue where
  | null
  | bool (b : Bool)
  | num (n : Int)
  | str (s : String)
  | arr (elems : List JValue)
  | obj (fields : List (String × JValue))

/-- One raw input line, classified by what `line.strip()` / `json.loads` do. -/
inductive JsonLine where
  | blank
  | malformed (raw : String)
  | parsed (v : JValue)

/-- Python exceptions that dictionary access / `str.join` can raise. -/
inductive PyError where
  | attributeError
  | typeError
deriving DecidableEq, Repr

/-- Python `dict` lookup on a parsed JSON object (later duplicate keys
override earlier ones, as in `json.loads`). -/
def jGet (fields : List (String × JValue)) (key : String) : Option JValue :=
  match fields with
  | [] => none
  | (k, v) :: rest =>
    match jGet rest key with
    | some w => some w
    | none => if k = key then some v else none

/-- Python `x == "lit"` where `x` came from `.get`: true only for an equal
string (comparison with `None` or a non-string is `False`). -/
def isStrVal (x : Option JValue) (lit : String) : Bool :=
  match x with
  | some (.str s) => s = lit
  | _ => false

/-- Python truthiness of a JSON value (`if text:`). -/
def jTruthy : JValue → Bool
  | .null => false
  | .bool b => b
  | .num n => n != 0
  | .str s => !s.isEmpty
  | .arr es => !es.isEmpty
  | .obj fs => !fs.isEmpty

/-- The loop body of `extract_agent_messages` on one parsed event `v`:
`.ok (some t)` when `t` is appended to `messages`, `.ok none` when the
line contributes nothing, `.error attributeError` when `.get` is called
on a non-dict (`event` or `item` not a JSON object). -/
def eventMessage (v : JValue) : Except PyError (Option JValue) :=
  match v with
  | .obj fields =>
    if isStrVal (jGet fields "type") "item.completed" then
      let item := match jGet fields "item" with
        | none => JValue.obj []
        | some w => w
      match item with
      | .obj ifields =>
        if isStrVal (jGet ifields "type") "agent_message" then
          let text := match jGet ifields "text" with
            | none => JValue.str ""
            | some t => t
          if jTruthy text then .ok (some text) else .ok none
        else .ok none
      | _ => .error .attributeError
    else .ok none
  | _ => .error .attributeError

/-- The `for line in jsonl_lines` loop: the `messages` list it builds, or
the first uncaught exception. -/
def collectMessages : List JsonLine → Except PyError (List JValue)
  | [] => .ok []
  | line :: rest =>
    match line with
    | .blank => collectMessages rest
    | .malformed _ => collectMessages rest
    | .parsed v =>
      match eventMessage v with
      | .error e => .error e
      | .ok none => collectMessages rest
      | .ok (some t) => (collectMessages rest).map (t :: ·)

/-- Python `sep.join(messages)`: `TypeError` unless every element is a
string. -/
def asStrings : List JValue → Except PyError (List String)
  | [] => .ok []
  | .str s :: rest => (asStrings rest).map (s :: ·)
  | _ :: _ => .error .typeError

/-- `extract_agent_messages` (runner.py lines 135-167): collect the text of
every `item.completed` / `agent_message` event with truthy text and join
with a blank line. -/
def extract_agent_messages (lines : List JsonLine) : Except PyError String :=
  match collectMessages lines with
  | .error e => .error e
  | .ok msgs => (asStrings msgs).map (String.intercalate "\n\n")

/-- Spec-side extraction rule (§4.3 of the spec, written from its words):
the text of a line that parses as a JSON object with `type` equal to
`"item.completed"` whose `item` is an object with `type` equal to
`"agent_message"` and non-empty string `text`. -/
def qualifyingText : JsonLine → Option String
  | .parsed (.obj fields) =>
    if isStrVal (jGet fields "type") "item.completed" then
      match jGet fields "item" with
      | some (.obj ifields) =>
        if isStrVal (jGet ifields "type") "agent_message" then
          match jGet ifields "text" with
          | some (.str s) => if s.isEmpty then none else some s
          | _ => none
        else none
      | _ => none
    else none
  | _ => none

/-- Spec-side extractor (§4.3): qualifying texts in input order, joined by
a blank line. -/
def extractMessagesSpec (lines : List JsonLine) : String :=
  String.intercalate "\n\n" (lines.filterMap qualifyingText)

/-- Lines on which the Python code cannot raise: every parsed value is a
JSON object, its `item` field (inspected only on `item.completed` events)
is an object when present, and an appended `text` is a string. -/
def lineSafe : JsonLine → Bool
  | .blank => true
  | .malformed _ => true
  | .parsed v =>
    match v with
    | .obj fields =>
      if isStrVal (jGet fields "type") "item.completed" then
        match jGet fields "item" with
        | none => true
        | some (.obj ifields) =>
          if isStrVal (jGet ifields "type") "agent_message" then
            match jGet ifields "text" with
            | none => true
            | some (.str _) => true
            | some t => !jTruthy t
          else true
        | some _ => false
      else true
    | _ => false

theorem eventMessage_of_safe (v : JValue)
    (h : lineSafe (.parsed v) = true) :
    eventMessage v = .ok ((qualifyingText (.parsed v)).map JValue.str) := by
  match v with
  | .null | .bool _ | .num _ | .str _ | .arr _ => simp [lineSafe] at h
  | .obj fields =>
    simp only [lineSafe] at h
    simp only [eventMessage, qualifyingText]
    by_cases htype : isStrVal (jGet fields "type") "item.completed" = true
    · simp only [htype, if_true] at h ⊢
      match hitem : jGet fields "item" with
      | none => simp [jGet, isStrVal]
      | some (.obj ifields) =>
        simp only [hitem] at h ⊢
        by_cases hmsg : isStrVal (jGet ifields "type") "agent_message" = true
        · simp only [hmsg, if_true] at h ⊢
          match htext : jGet ifields "text" with
          | none => simp [jTruthy, String.isEmpty]
          | some (.str s) =>
            simp only [htext, jTruthy]
            by_cases hs : s.isEmpty
            · simp [hs]
            · simp [hs]
          | some .null | some (.bool _) | some (.num _)
          | some (.arr _) | some (.obj _) =>
            simp only [htext] at h
            simp only [Bool.not_eq_true'] at h
            simp [h]
        · simp [hmsg]
      | some .null | some (.bool _) | some (.num _)
      | some (.str _) | some (.arr _) =>
        simp only [hitem] at h
        exact Bool.noConfusion h
    · simp [htype]

theorem collectMessages_of_safe (lines : List JsonLine)
    (h : ∀ l ∈ lines, lineSafe l = true) :
    collectMessages lines = .ok ((lines.filterMap qualifyingText).map JValue.str) := by
  induction lines with
  | nil => rfl
  | cons line rest ih =>
    have hline := h line (List.mem_cons_self _ _)
    have hrest := ih (fun l hl => h l (List.mem_cons_of_mem _ hl))
    match line with
    | .blank => simpa [collectMessages, List.filterMap] using hrest
    | .malformed _ => simpa [collectMessages, List.filterMap] using hrest
    | .parsed v =>
      simp only [collectMessages, eventMessage_of_safe v hline, hrest]
      match hq : qualifyingText (.parsed v) with
      | none => simp [List.filterMap_cons, hq]
      | some t => simp [List.filterMap_cons, hq, Except.map]

theorem asStrings_map_str (l : List String) :
    asStrings (l.map JValue.str) = .ok l := by
  induction l with
  | nil => rfl
  | cons s rest ih => simp [asStrings, ih, Except.map]

/-- C3 (counterexample): a line that is valid JSON but not a JSON object —
here the line `"5"`, which `json.loads` parses to the number 5 — makes
`extract_agent_messages` call `.get` on a non-dict and raise
`AttributeError`, aborting extraction instead of returning the join of the
qualifying messages (which would be `""` for this input). -/
theorem extract_agent_messages_nonobject_counterexample :
    extract_agent_messages [JsonLine.parsed (JValue.num 5)]
        = Except.error PyError.attributeError
      ∧ extract_agent_messages [JsonLine.parsed (JValue.num 5)]
        ≠ Except.ok "" := by
  exact ⟨rfl, fun h => Except.noConfusion (rfl.symm.trans h)⟩

/-- C3 (amended): for every list of input lines in which each line that
parses as JSON is a well-shaped object (the parsed value is a JSON object;
its `item` field, inspected only on `item.completed` events, is an object
when present; an appended `text` is a string), `extract_agent_messages`
returns exactly the `item.text` values of the `item.completed` /
`agent_message` lines with non-empty text, in input order, joined by
`"\n\n"`; blank lines and lines that fail to parse as JSON are skipped
without aborting extraction, and the empty input yields the empty
string.  (A parsed line that is not such an object raises an uncaught
`AttributeError` — see the counterexample.) -/
theorem extract_agent_messages_safe_spec (lines : List JsonLine)
    (h : ∀ l ∈ lines, lineSafe l = true) :
    extract_agent_messages lines = Except.ok (extractMessagesSpec lines) := by
  unfold extract_agent_messages extractMessagesSpec
  rw [collectMessages_of_safe lines h]
  simp [asStrings_map_str, Except.map]

/-- C3 (witness): the spec's own example — one malformed line and one
valid `agent_message` line yield only the valid message; the empty list
yields the empty string. -/
theorem extract_agent_messages_safe_spec_witness :
    extract_agent_messages
        [JsonLine.malformed "not json",
         JsonLine.parsed (JValue.obj
           [("type", JValue.str "item.completed"),
            ("item", JValue.obj
              [("type", JValue.str "agent_message"),
               ("text", JValue.str "Valid")])])]
      = Except.ok "Valid"
    ∧ extract_agent_messages [] = Except.ok "" := by
  constructor
  · rw [extract_agent_messages_safe_spec _ (by intro l hl; fin_cases hl <;> rfl)]
    rfl
  · rw [extract_agent_messages_safe_spec _ (by intro l hl; cases hl)]
    rfl

/-! ### Agent-name validation (`validate_agent_name`, runner.py lines 29-42)

`AGENT_NAME_PATTERN.match` is CPython `re.match(r"^[a-zA-Z0-9_-]+$", name)`.
Note the CPython rule that `$` also matches just before a newline that is
the last character of the string. -/

/-- One character of the class `[a-zA-Z0-9_-]` (ASCII-only in `re`). -/
def agentNameChar (c : Char) : Bool :=
  c.isAlpha || c.isDigit || c = '-' || c = '_'

/-- Remove one trailing newline if present (the positions where `$` can
match are exactly the end of this list). -/
def dropTrailingNewline (l : List Char) : List Char :=
  match l.getLast? with
  | some c => if c = '\n' then l.dropLast else l
  | none => l

/-- `re.match(r"^[a-zA-Z0-9_-]+$", s)` succeeds: after discounting one
trailing newline, the string is non-empty and every character is in the
class. -/
def agentPatternMatches (s : String) : Bool :=
  let core := dropTrailingNewline s.data
  !core.isEmpty && core.all agentNameChar

/-- Python `name.startswith("-")`. -/
def startsWithHyphen (s : String) : Bool :=
  match s.data with
  | [] => false
  | c :: _ => c = '-'

/-- The `ValueError`s `validate_agent_name` can raise, by message. -/
inductive NameError where
  | emptyName
  | invalidChars
  | leadingHyphen
deriving DecidableEq, Repr

/-- `validate_agent_name` (runner.py lines 29-42). -/
def validate_agent_name (name : String) : Except NameError Unit :=
  if name.data.isEmpty then .error .emptyName
  else if !agentPatternMatches name then .error .invalidChars
  else if startsWithHyphen name then .error .leadingHyphen
  else .ok ()

/-- Spec-side acceptance rule (§4.1 and claim C7): non-empty, every
character in `[a-zA-Z0-9_-]`, no leading hyphen. -/
def specValidAgentName (name : String) : Bool :=
  !name.data.isEmpty && name.data.all agentNameChar && !startsWithHyphen name

/-- C7: the claim fails on the code.  `"x\n"` contains a character outside
the accepted alphabet (a newline), so the claim requires `ValueError`, but
`validate_agent_name` accepts it: CPython `$` matches just before the
trailing newline, although the function's own doc string and error message
promise "only alphanumeric, hyphen, or underscore characters". -/
theorem validate_agent_name_trailing_newline_bug :
    specValidAgentName "x\n" = false
      ∧ validate_agent_name "x\n" = Except.ok () := by
  constructor <;> rfl

/-! ### Pair parsing (`parse_agent_task_pair`, runner.py lines 399-436) -/

/-- The double-quote and single-quote characters (written by code point to
keep the embedding free of quote-escape noise). -/
def dquote : Char := Char.ofNat 34

def squote : Char := Char.ofNat 39

/-- Python `pair.split(":", 1)` when a colon is present: the characters
before the first `':'` and the characters after it. -/
def splitFirstColon : List Char → Option (List Char × List Char)
  | [] => none
  | c :: rest =>
    if c = ':' then some ([], rest)
    else (splitFirstColon rest).map (fun p => (c :: p.1, p.2))

/-- CPython `re.match(r'^([^:]+):Q(.+)Q$', pair)` for a quote character
`Q`: after discounting one trailing newline (`$`), the text before the
first colon is the non-empty group 1; the remainder must start and end
with `Q` with a non-empty, newline-free middle (group 2, greedy `.+` —
everything between the opening quote and the last character). -/
def matchQuotedForm (q : Char) (pair : String) : Option (String × String) :=
  let core := dropTrailingNewline pair.data
  match splitFirstColon core with
  | none => none
  | some (a, rest) =>
    if a.isEmpty then none
    else
      match rest with
      | [] => none
      | c :: rest2 =>
        if c = q then
          match rest2.getLast? with
          | none => none
          | some d =>
            if d = q then
              let t := rest2.dropLast
              if !t.isEmpty && t.all (fun ch => ch != '\n') then
                some (⟨a⟩, ⟨t⟩)
              else none
            else none
        else none

/-- The `ValueError`s `parse_agent_task_pair` can raise, by message. -/
inductive PairError where
  | invalidFormat
  | nameError (e : NameError)
  | emptyTask
deriving DecidableEq, Repr

/-- The three surface forms tried in order (double-quoted, single-quoted,
bare split on the first colon); the first match wins. -/
def winningForm (pair : String) : Option (String × String) :=
  match matchQuotedForm dquote pair with
  | some p => some p
  | none =>
    match matchQuotedForm squote pair with
    | some p => some p
    | none => (splitFirstColon pair.data).map (fun p => (⟨p.1⟩, ⟨p.2⟩))

/-- The tail of `parse_agent_task_pair` once a form has matched: strip
both components, validate the agent name, reject an empty task. -/
def finishPair (agent task : String) : Except PairError (String × String) :=
  let agent := pyStrip agent
  let task := pyStrip task
  match validate_agent_name agent with
  | .error e => .error (.nameError e)
  | .ok _ => if task.data.isEmpty then .error .emptyTask else .ok (agent, task)

/-- `parse_agent_task_pair` (runner.py lines 399-436). -/
def parse_agent_task_pair (pair : String) : Except PairError (String × String) :=
  match winningForm pair with
  | none => .error .invalidFormat
  | some (a, t) => finishPair a t

theorem splitFirstColon_eq_none_iff (l : List Char) :
    splitFirstColon l = none ↔ ':' ∉ l := by
  induction l with
  | nil => simp [splitFirstColon]
  | cons c rest ih =>
    by_cases hc : c = ':'
    · subst hc; simp [splitFirstColon]
    · simp only [splitFirstColon, if_neg hc, List.mem_cons, not_or]
      constructor
      · intro h
        refine ⟨fun hiff => hc hiff.symm, ?_⟩
        exact ih.mp (by
          match hs : splitFirstColon rest with
          | none => rfl
          | some p => rw [hs] at h; exact Option.noConfusion h)
      · intro ⟨_, hrest⟩
        rw [ih.mpr hrest]
        rfl

theorem mem_dropTrailingNewline_of_ne {c : Char} (hc : c ≠ '\n')
    (l : List Char) : c ∈ dropTrailingNewline l ↔ c ∈ l := by
  unfold dropTrailingNewline
  match hlast : l.getLast? with
  | none => rfl
  | some d =>
    by_cases hd : d = '\n'
    · subst hd
      simp only [if_pos rfl]
      have hne : l ≠ [] := by
        intro h; subst h; exact Option.noConfusion hlast
      conv_rhs => rw [← List.dropLast_append_getLast hne]
      rw [List.getLast?_eq_getLast l hne] at hlast
      have : l.getLast hne = '\n' := Option.some.inj hlast
      rw [this]
      simp [hc]
    · simp [hd]

theorem parse_eq_finishPair {pair a t : String}
    (hw : winningForm pair = some (a, t)) :
    parse_agent_task_pair pair = finishPair a t := by
  unfold parse_agent_task_pair
  rw [hw]

theorem finishPair_error_iff (a t : String) :
    (∃ e, finishPair a t = .error e) ↔
      (validate_agent_name (pyStrip a) ≠ .ok ()
       ∨ (pyStrip t).data.isEmpty = true) := by
  unfold finishPair
  match hv : validate_agent_name (pyStrip a) with
  | .error e2 => simp [hv]
  | .ok u =>
    cases u
    by_cases ht : (pyStrip t).data.isEmpty <;> simp [hv, ht]

theorem matchQuotedForm_eq_none_of_no_colon {pair : String} (q : Char)
    (h : ':' ∉ pair.data) : matchQuotedForm q pair = none := by
  have hcore : ':' ∉ dropTrailingNewline pair.data := by
    intro hmem
    exact h ((mem_dropTrailingNewline_of_ne (by decide) pair.data).mp hmem)
  simp [matchQuotedForm, (splitFirstColon_eq_none_iff _).mpr hcore]

theorem winningForm_eq_none_split {pair : String}
    (hw : winningForm pair = none) : splitFirstColon pair.data = none := by
  unfold winningForm at hw
  match h1 : matchQuotedForm dquote pair with
  | some p => rw [h1] at hw; exact Option.noConfusion hw
  | none =>
    rw [h1] at hw
    match h2 : matchQuotedForm squote pair with
    | some p => rw [h2] at hw; exact Option.noConfusion hw
    | none =>
      rw [h2] at hw
      match h3 : splitFirstColon pair.data with
      | none => rfl
      | some p => rw [h3] at hw; exact Option.noConfusion hw

/-- C6: `parse_agent_task_pair` tries the double-quoted form, the
single-quoted form, then a split on the first colon, first match winning;
agent and task are stripped; it fails exactly when no colon-bearing form
matches, the stripped task is empty, or the agent name fails validation;
and the three examples from the spec behave as stated. -/
theorem parse_agent_task_pair_spec :
    parse_agent_task_pair "coder:\"do X\"" = .ok ("coder", "do X")
    ∧ parse_agent_task_pair "agent:" = .error .emptyTask
    ∧ parse_agent_task_pair "../x:y" = .error (.nameError .invalidChars)
    ∧ (∀ pair a t, matchQuotedForm dquote pair = some (a, t) →
        parse_agent_task_pair pair = finishPair a t)
    ∧ (∀ pair a t, matchQuotedForm dquote pair = none →
        matchQuotedForm squote pair = some (a, t) →
        parse_agent_task_pair pair = finishPair a t)
    ∧ (∀ pair a t, matchQuotedForm dquote pair = none →
        matchQuotedForm squote pair = none →
        splitFirstColon pair.data = some (a, t) →
        parse_agent_task_pair pair = finishPair ⟨a⟩ ⟨t⟩)
    ∧ (∀ pair, (∃ e, parse_agent_task_pair pair = .error e) ↔
        (':' ∉ pair.data
         ∨ ∃ a t, winningForm pair = some (a, t)
             ∧ (validate_agent_name (pyStrip a) ≠ .ok ()
                ∨ (pyStrip t).data.isEmpty = true))) := by
  refine ⟨by rfl, by rfl, by rfl, ?_, ?_, ?_, ?_⟩
  · intro pair a t h
    unfold parse_agent_task_pair winningForm
    rw [h]
  · intro pair a t h1 h2
    unfold parse_agent_task_pair winningForm
    rw [h1, h2]
  · intro pair a t h1 h2 h3
    unfold parse_agent_task_pair winningForm
    rw [h1, h2, h3]
    rfl
  · intro pair
    match hw : winningForm pair with
    | none =>
      have hnc := (splitFirstColon_eq_none_iff pair.data).mp
        (winningForm_eq_none_split hw)
      constructor
      · intro _
        exact Or.inl hnc
      · intro _
        exact ⟨.invalidFormat, by unfold parse_agent_task_pair; rw [hw]⟩
    | some (a, t) =>
      rw [parse_eq_finishPair hw, finishPair_error_iff]
      constructor
      · intro hp
        exact Or.inr ⟨a, t, rfl, hp⟩
      · rintro (hnc | ⟨a2, t2, heq, hp⟩)
        · exfalso
          have h1 := matchQuotedForm_eq_none_of_no_colon dquote hnc
          have h2 := matchQuotedForm_eq_none_of_no_colon squote hnc
          have h3 := (splitFirstColon_eq_none_iff pair.data).mpr hnc
          unfold winningForm at hw
          rw [h1, h2, h3] at hw
          exact Option.noConfusion hw
        · obtain ⟨h1, h2⟩ := Prod.mk.inj (Option.some.inj heq)
          subst h1; subst h2
          exact hp

/-- C6 (witness): the first-wins and ordered-fallback clauses instantiated
at concrete inputs. -/
theorem parse_agent_task_pair_spec_witness :
    parse_agent_task_pair "x:\"y z\"" = finishPair "x" "y z"
    ∧ parse_agent_task_pair "tdd-agent:write tests"
        = finishPair "tdd-agent" "write tests" := by
  constructor
  · exact parse_agent_task_pair_spec.2.2.2.1 "x:\"y z\"" "x" "y z" (by decide)
  · exact parse_agent_task_pair_spec.2.2.2.2.2.1 "tdd-agent:write tests"
      "tdd-agent".data "write tests".data (by decide) (by decide) (by decide)

/-! ### Payload building (`build_payload`, `build_vanilla_payload`,
runner.py lines 44-55, 120-132, 170-178)

`time.strftime("%Y-%m-%dT%H:%M:%SZ", time.gmtime())` is an external clock
read, passed in as the `now` argument. -/

/-- The `metadata` sub-dictionary of a payload. -/
structure PayloadMeta where
  agentName : String
  startedAt : String
deriving DecidableEq, Repr

/-- The JSON payload sent to `codex exec`; `instructions = none` models the
key being absent from the dictionary. -/
structure Payload where
  instructions : Option String
  task : String
  metadata : PayloadMeta
deriving DecidableEq, Repr

/-- The fixed agent label of a vanilla run (`"agentName": "codex"`). -/
def vanillaSentinel : String := "codex"

/-- `SUBAGENT_GUIDANCE.format(agent_name=agentName)` (runner.py lines
44-55). -/
def subagentGuidance (agentName : String) : String :=
  "You ARE the " ++ agentName ++
  " agent executing a task. You are NOT a dispatcher.\n\nCRITICAL CONSTRAINTS:\n- Do NOT spawn subagents or call run_subagent.py\n- Do NOT delegate to other agents\n- Execute the task directly using your own capabilities\n- If the task is outside your expertise, say so and stop\n\nYour role: Follow the instructions below and complete the user\x27s task directly.\n"

/-- `build_payload` (runner.py lines 120-132). -/
def build_payload (agentName instructions task now : String) : Payload :=
  { instructions := some (subagentGuidance agentName ++ "\n---\n\n" ++ instructions)
    task := task
    metadata := { agentName := agentName, startedAt := now } }

/-- `build_vanilla_payload` (runner.py lines 170-178). -/
def build_vanilla_payload (task now : String) : Payload :=
  { instructions := none
    task := task
    metadata := { agentName := vanillaSentinel, startedAt := now } }

/-- C9: a vanilla payload has no `instructions` field and carries the fixed
vanilla sentinel as its agent label, and the `instructions` string built by
`build_payload` contains both the formatted guidance block and the
caller-supplied instructions verbatim (as contiguous substrings). -/
theorem payload_builders_spec :
    (∀ task now, (build_vanilla_payload task now).instructions = none
      ∧ (build_vanilla_payload task now).metadata.agentName = vanillaSentinel)
    ∧ (∀ a i t now, ∃ s, (build_payload a i t now).instructions = some s
        ∧ (subagentGuidance a).data <:+: s.data
        ∧ i.data <:+: s.data) := by
  constructor
  · intro task now
    exact ⟨rfl, rfl⟩
  · intro a i t now
    refine ⟨subagentGuidance a ++ "\n---\n\n" ++ i, rfl, ?_, ?_⟩
    · refine ⟨[], ("\n---\n\n" ++ i).data, ?_⟩
      simp [String.data_append]
    · refine ⟨(subagentGuidance a ++ "\n---\n\n").data, [], ?_⟩
      simp [String.data_append]

/-! ### Argument interpolation (`interpolate_arguments`, commands.py
lines 270-293) -/

/-- The `for i, arg in enumerate(args, start=1)` loop: replace `$i` by
`arg` for each argument in turn, over the whole current result string. -/
def interpGo (i : Nat) : List String → String → String
  | [], r => r
  | a :: rest, r => interpGo (i + 1) rest (pyReplace r ("$" ++ decRepr i) a)

/-- `interpolate_arguments` (commands.py lines 270-293): replace `$@` by
the space-joined arguments (guarded by an `in` test, as in the source),
then `$1`, `$2`, ... sequentially. -/
def interpolate_arguments (prompt : String) (args : List String) : String :=
  let r0 := if containsSubL "$@".data prompt.data then
              pyReplace prompt "$@" (String.intercalate " " args)
            else prompt
  interpGo 1 args r0

theorem replaceFuel_of_not_contains (pat rep : List Char) :
    ∀ fuel s, containsSubL pat s = false → replaceFuel pat rep fuel s = s := by
  intro fuel
  induction fuel with
  | zero => intro s _; rfl
  | succ f ih =>
    intro s hs
    match s with
    | [] => rfl
    | c :: rest =>
      simp only [containsSubL, Bool.or_eq_false_iff] at hs
      obtain ⟨hpre, hrest⟩ := hs
      simp [replaceFuel, hpre, ih rest hrest]

/-- C10: `interpolate_arguments` first substitutes `$@`, then `$1`, `$2`,
... sequentially in increasing index order over the whole result string;
hence text introduced by an earlier substitution is itself subject to
later ones (`interpolate_arguments "$1" ["$2", "X"] = "X"`), and `$10`
with at least one argument becomes the first argument followed by `0` —
never the tenth argument, even when ten arguments are supplied. -/
theorem interpolate_arguments_spec :
    (∀ prompt args, interpolate_arguments prompt args
        = interpGo 1 args (pyReplace prompt "$@" (String.intercalate " " args)))
    ∧ interpolate_arguments "$1" ["$2", "X"] = "X"
    ∧ interpolate_arguments "$10" ["A"] = "A0"
    ∧ interpolate_arguments "$10" ["A", "B", "C", "D", "E", "F", "G", "H", "I", "J"]
        = "A0" := by
  refine ⟨?_, by rfl, by rfl, by rfl⟩
  intro prompt args
  unfold interpolate_arguments
  by_cases h : containsSubL "$@".data prompt.data
  · simp [h]
  · simp only [Bool.not_eq_true] at h
    rw [if_neg (by simp [h])]
    have hid : pyReplace prompt "$@" (String.intercalate " " args) = prompt := by
      unfold pyReplace
      rw [replaceFuel_of_not_contains "$@".data
        (String.intercalate " " args).data prompt.data.length prompt.data h]
    rw [hid]

/-! ### Per-request identifiers (`_run_parallel_async`, runner.py lines
544-559): `agent_id = f"{agent_name}-{idx}"` -/

/-- The per-request identifier: agent name, a hyphen, the decimal ordinal
index. -/
def agentId (name : String) (idx : Nat) : String :=
  name ++ "-" ++ decRepr idx

/-- The `agent_ids` list built by the `for idx, ... in enumerate(requests)`
loop, one identifier per request, starting at ordinal `start`. -/
def buildAgentIds (start : Nat) : List String → List String
  | [] => []
  | n :: rest => agentId n start :: buildAgentIds (start + 1) rest

theorem hyphen_free_prefix_eq :
    ∀ (b1 : List Char) {b2 l1 l2 : List Char},
      b1 ++ '-' :: l1 = b2 ++ '-' :: l2 → '-' ∉ b1 → '-' ∉ b2 → b1 = b2 := by
  intro b1
  induction b1 with
  | nil =>
    intro b2 l1 l2 h _ h2
    match b2 with
    | [] => rfl
    | c :: b2t =>
      exfalso
      have hc : '-' = c := by
        have := congrArg (List.headD · '-') h
        simpa using this
      exact h2 (hc ▸ List.mem_cons_self c b2t)
  | cons c b1t ih =>
    intro b2 l1 l2 h h1 h2
    match b2 with
    | [] =>
      exfalso
      have hc : c = '-' := by
        have := congrArg (List.headD · '-') h
        simpa using this
      exact h1 (hc ▸ List.mem_cons_self c b1t)
    | c2 :: b2t =>
      have hc : c = c2 := by
        have := congrArg (List.headD · '-') h
        simpa using this
      have htail : b1t ++ '-' :: l1 = b2t ++ '-' :: l2 := by
        have := congrArg List.tail h
        simpa using this
      have h1t : '-' ∉ b1t := fun hm => h1 (List.mem_cons_of_mem _ hm)
      have h2t : '-' ∉ b2t := fun hm => h2 (List.mem_cons_of_mem _ hm)
      rw [hc, ih htail h1t h2t]

theorem hyphen_free_suffix_eq {a1 a2 s1 s2 : List Char}
    (h : a1 ++ '-' :: s1 = a2 ++ '-' :: s2)
    (h1 : '-' ∉ s1) (h2 : '-' ∉ s2) : s1 = s2 := by
  have hrev := congrArg List.reverse h
  simp only [List.reverse_append, List.reverse_cons] at hrev
  have hrev2 : s1.reverse ++ '-' :: a1.reverse
      = s2.reverse ++ '-' :: a2.reverse := by
    simpa [List.append_assoc] using hrev
  have := hyphen_free_prefix_eq s1.reverse hrev2
    (fun hm => h1 (List.mem_reverse.mp hm))
    (fun hm => h2 (List.mem_reverse.mp hm))
  exact List.reverse_injective this

theorem agentId_data (name : String) (idx : Nat) :
    (agentId name idx).data = name.data ++ '-' :: (decLE idx).reverse := by
  unfold agentId decRepr
  rw [String.data_append, String.data_append]
  simp

theorem agentId_inj_idx {n1 n2 : String} {i j : Nat}
    (h : agentId n1 i = agentId n2 j) : i = j := by
  have hd := congrArg String.data h
  rw [agentId_data, agentId_data] at hd
  have hs := hyphen_free_suffix_eq hd
    (fun hm => hyphen_not_mem_decLE i (List.mem_reverse.mp hm))
    (fun hm => hyphen_not_mem_decLE j (List.mem_reverse.mp hm))
  exact decLE_injective (List.reverse_injective hs)

theorem mem_buildAgentIds {x : String} :
    ∀ {start : Nat} {l : List String}, x ∈ buildAgentIds start l →
      ∃ n k, start ≤ k ∧ x = agentId n k := by
  intro start l
  induction l generalizing start with
  | nil => intro h; cases h
  | cons n rest ih =>
    intro h
    rcases List.mem_cons.mp h with heq | hmem
    · exact ⟨n, start, Nat.le_refl _, heq⟩
    · obtain ⟨n2, k, hk, hx⟩ := ih hmem
      exact ⟨n2, k, by omega, hx⟩

/-- C8: the per-request identifiers built for a batch — agent name, a
hyphen, and the request's decimal ordinal index — are pairwise distinct,
even when the same agent name (possibly itself containing hyphens and
digits) appears at several positions: distinct ordinals force distinct
identifiers. -/
theorem agent_ids_pairwise_distinct (names : List String) :
    (buildAgentIds 0 names).Nodup := by
  suffices h : ∀ start (l : List String), (buildAgentIds start l).Nodup from
    h 0 names
  intro start l
  induction l generalizing start with
  | nil => exact List.nodup_nil
  | cons n rest ih =>
    refine List.nodup_cons.mpr ⟨?_, ih (start + 1)⟩
    intro hmem
    obtain ⟨n2, k, hk, hx⟩ := mem_buildAgentIds hmem
    have := agentId_inj_idx hx
    omega

/-! ### Single-run supervisors (`_run_codex_sync`, runner.py lines 275-397;
`_run_codex_async`, runner.py lines 589-713)

A subprocess that launched successfully is modelled by its timed output
trace: each output line with its arrival time (measured from launch), the
time the output stream ends, the time the process exits, and its exit
code.  Times are abstract clock ticks.  Both models are the collect
(`output_format="text"`) path; the stream path differs only in where
lines are written, not in timing, exit code or error fields.  A Python
exception escaping the function (from `extract_agent_messages`) is the
`Except.error` case. -/

/-- `AgentResult` (runner.py lines 58-66). -/
structure AgentResult where
  agent : String
  output : String
  returncode : Int
  elapsed : Nat
  error : Option String
deriving DecidableEq, Repr

/-- Timed output trace of a successfully launched subprocess. -/
structure OutputTrace where
  lines : List (Nat × JsonLine)
  eofTime : Nat
  exitTime : Nat
  exitCode : Int

/-- `f"Timeout after {timeout}s"`. -/
def timeoutMessage (timeout : Nat) : String :=
  "Timeout after " ++ decRepr timeout ++ "s"

/-- Does the stripped line test empty (`if line:` fails)? -/
def isBlankLine : JsonLine → Bool
  | .blank => true
  | _ => false

/-- `_run_codex_sync` after a successful launch.  The `for line in
proc.stdout` loop has no time bound: it runs until the stream ends at
`eofTime`, collecting the non-blank lines.  Only then does
`proc.wait(timeout=timeout)` run, with the budget counted from that
moment; `TimeoutExpired` fires iff the process is still alive
`timeout` ticks after end-of-stream. -/
def runCodexSync (agentName : String) (tr : OutputTrace) (timeout : Nat) :
    Except PyError AgentResult :=
  let collected := (tr.lines.map (·.2)).filter (fun l => !isBlankLine l)
  if tr.exitTime ≤ tr.eofTime + timeout then
    (extract_agent_messages collected).map (fun out =>
      { agent := agentName, output := out, returncode := tr.exitCode,
        elapsed := max tr.eofTime tr.exitTime, error := none })
  else
    .ok { agent := agentName, output := "", returncode := -1,
          elapsed := tr.eofTime + timeout,
          error := some (timeoutMessage timeout) }

/-- The `while True` read loop of `_run_codex_async`: each
`asyncio.wait_for(proc.stdout.readline(), timeout=timeout)` waits up to
`timeout` ticks from the current time `t` for the next line (or for
end-of-stream); on `asyncio.TimeoutError` the loop aborts at
`t + timeout` (the `.error` case).  The budget resets at every line —
it is per-read, not cumulative. -/
def asyncReadLoop (timeout : Nat) : Nat → List (Nat × JsonLine) → Nat →
    Except Nat (List JsonLine)
  | t, [], eof => if eof ≤ t + timeout then .ok [] else .error (t + timeout)
  | t, (ta, l) :: rest, eof =>
    if ta ≤ t + timeout then
      (asyncReadLoop timeout ta rest eof).map
        (fun collected => if isBlankLine l then collected else l :: collected)
    else .error (t + timeout)

/-- `_run_codex_async` after a successful launch: run the read loop; on a
read timeout kill the process and return the timeout result; otherwise
`await proc.wait()` (unbounded) and extract. -/
def runCodexAsync (agentName : String) (tr : OutputTrace) (timeout : Nat) :
    Except PyError AgentResult :=
  match asyncReadLoop timeout 0 tr.lines tr.eofTime with
  | .error tAt =>
    .ok { agent := agentName, output := "", returncode := -1,
          elapsed := tAt, error := some (timeoutMessage timeout) }
  | .ok collected =>
    (extract_agent_messages collected).map (fun out =>
      { agent := agentName, output := out, returncode := tr.exitCode,
        elapsed := max tr.eofTime tr.exitTime, error := none })

/-- Every inter-event gap in the trace is at most `timeout`: the next line
arrives within `timeout` of the previous one, and end-of-stream within
`timeout` of the last line.  The cumulative duration is unbounded. -/
def gapsWithin (timeout : Nat) : Nat → List (Nat × JsonLine) → Nat → Bool
  | t, [], eof => eof ≤ t + timeout
  | t, (ta, _) :: rest, eof => ta ≤ t + timeout && gapsWithin timeout ta rest eof

theorem asyncReadLoop_ok_of_gaps (timeout : Nat) :
    ∀ t lines eof, gapsWithin timeout t lines eof = true →
      ∃ c, asyncReadLoop timeout t lines eof = .ok c := by
  intro t lines
  induction lines generalizing t with
  | nil =>
    intro eof h
    simp only [gapsWithin] at h
    refine ⟨[], ?_⟩
    simp only [asyncReadLoop]
    rw [if_pos (of_decide_eq_true h)]
  | cons p rest ih =>
    intro eof h
    obtain ⟨ta, l⟩ := p
    simp only [gapsWithin, Bool.and_eq_true] at h
    obtain ⟨h1, h2⟩ := h
    obtain ⟨c, hc⟩ := ih ta eof h2
    refine ⟨if isBlankLine l then c else l :: c, ?_⟩
    simp only [asyncReadLoop]
    rw [if_pos (of_decide_eq_true h1), hc]
    rfl

/-- C1 (counterexample): a subprocess that stays silent but holds its
output stream open for 100 ticks, with `timeout = 1`.  The sync
supervisor's read loop blocks until end-of-stream: the run returns
normally with `exitCode = 0`, no error, and `elapsedSeconds = 100` — not
`exitCode = -1` with an error mentioning the timeout and
`elapsedSeconds ≈ 1` as the claim states. -/
theorem runCodexSync_silent_hang_counterexample :
    runCodexSync "a" { lines := [], eofTime := 100, exitTime := 100, exitCode := 0 } 1
      = .ok { agent := "a", output := "", returncode := 0,
              elapsed := 100, error := none }
    ∧ runCodexSync "a" { lines := [], eofTime := 100, exitTime := 100, exitCode := 0 } 1
      ≠ .ok { agent := "a", output := "", returncode := -1,
              elapsed := 1, error := some (timeoutMessage 1) } := by
  have h1 : runCodexSync "a"
      { lines := [], eofTime := 100, exitTime := 100, exitCode := 0 } 1
      = .ok { agent := "a", output := "", returncode := 0,
              elapsed := 100, error := none } := rfl
  refine ⟨h1, fun h => ?_⟩
  have heq := Except.ok.inj (h1.symm.trans h)
  exact absurd (congrArg AgentResult.returncode heq) (by decide)

/-- C1 (amended): the timeout discipline the code actually implements.
Async path: the read budget is per-line; a subprocess producing no output
within `timeout` yields `exitCode = -1`, an error message naming the
timeout value, and `elapsed = timeout`; and whenever every inter-event
gap is within `timeout`, the run never times out — even when the
cumulative duration exceeds `timeout`.  Sync path: reading is not time
bounded; the timeout applies only to waiting for process exit after
end-of-stream, so a run whose process exits within `timeout` of
end-of-stream reports `elapsed = max eofTime exitTime` (the full stream
duration) with no error, and otherwise times out at
`eofTime + timeout`. -/
theorem supervisor_timeout_semantics :
    (∀ name (tr : OutputTrace) timeout, tr.lines = [] → timeout < tr.eofTime →
      runCodexAsync name tr timeout
        = .ok { agent := name, output := "", returncode := -1,
                elapsed := timeout, error := some (timeoutMessage timeout) })
    ∧ (∀ name (tr : OutputTrace) timeout r,
        gapsWithin timeout 0 tr.lines tr.eofTime = true →
        runCodexAsync name tr timeout = .ok r →
        r.error = none ∧ r.returncode = tr.exitCode
          ∧ r.elapsed = max tr.eofTime tr.exitTime)
    ∧ (∀ name (tr : OutputTrace) timeout r,
        tr.exitTime ≤ tr.eofTime + timeout →
        runCodexSync name tr timeout = .ok r →
        r.error = none ∧ r.returncode = tr.exitCode
          ∧ r.elapsed = max tr.eofTime tr.exitTime)
    ∧ (∀ name (tr : OutputTrace) timeout,
        tr.eofTime + timeout < tr.exitTime →
        runCodexSync name tr timeout
          = .ok { agent := name, output := "", returncode := -1,
                  elapsed := tr.eofTime + timeout,
                  error := some (timeoutMessage timeout) }) := by
  refine ⟨?_, ?_, ?_, ?_⟩
  · intro name tr timeout hlines heof
    unfold runCodexAsync
    rw [hlines]
    have hloop : asyncReadLoop timeout 0 [] tr.eofTime = .error (0 + timeout) := by
      simp only [asyncReadLoop]
      rw [if_neg (by omega)]
    rw [hloop]
    simp
  · intro name tr timeout r hgaps hr
    obtain ⟨c, hc⟩ := asyncReadLoop_ok_of_gaps timeout 0 tr.lines tr.eofTime hgaps
    unfold runCodexAsync at hr
    rw [hc] at hr
    have hr2 : Except.map (fun out =>
        ({ agent := name, output := out, returncode := tr.exitCode,
           elapsed := max tr.eofTime tr.exitTime, error := none } : AgentResult))
        (extract_agent_messages c) = Except.ok r := hr
    match hx : extract_agent_messages c with
    | .error e =>
      rw [hx] at hr2
      simp [Except.map] at hr2
    | .ok out =>
      rw [hx] at hr2
      simp only [Except.map] at hr2
      have := Except.ok.inj hr2
      rw [← this]
      exact ⟨rfl, rfl, rfl⟩
  · intro name tr timeout r hexit hr
    unfold runCodexSync at hr
    rw [if_pos hexit] at hr
    have hr2 : Except.map (fun out =>
        ({ agent := name, output := out, returncode := tr.exitCode,
           elapsed := max tr.eofTime tr.exitTime, error := none } : AgentResult))
        (extract_agent_messages
          ((tr.lines.map (·.2)).filter (fun l => !isBlankLine l)))
        = Except.ok r := hr
    match hx : extract_agent_messages
        ((tr.lines.map (·.2)).filter (fun l => !isBlankLine l)) with
    | .error e =>
      rw [hx] at hr2
      simp [Except.map] at hr2
    | .ok out =>
      rw [hx] at hr2
      simp only [Except.map] at hr2
      have := Except.ok.inj hr2
      rw [← this]
      exact ⟨rfl, rfl, rfl⟩
  · intro name tr timeout hexit
    unfold runCodexSync
    rw [if_neg (by omega)]

/-- C1 (witness): the four clauses at concrete traces — a silent stream
with `timeout = 1` timing out at 1 on the async path; an async trace whose
lines arrive at 9, 18 with end-of-stream at 20 under `timeout = 10`
finishing normally although its total duration exceeds the timeout; a
sync run whose silent stream stays open 100 ticks under `timeout = 1`
finishing with `elapsed = 100`; and a sync run whose process survives
end-of-stream by more than the timeout, timing out. -/
theorem supervisor_timeout_semantics_witness :
    runCodexAsync "a" { lines := [], eofTime := 5, exitTime := 5, exitCode := 0 } 1
      = .ok { agent := "a", output := "", returncode := -1,
              elapsed := 1, error := some (timeoutMessage 1) }
    ∧ ((none : Option String) = none ∧ (3 : Int) = 3 ∧ (21 : Nat) = max 20 21)
    ∧ ((none : Option String) = none ∧ (0 : Int) = 0 ∧ (100 : Nat) = max 100 100)
    ∧ runCodexSync "a" { lines := [], eofTime := 0, exitTime := 5, exitCode := 7 } 2
      = .ok { agent := "a", output := "", returncode := -1,
              elapsed := 2, error := some (timeoutMessage 2) } := by
  refine ⟨?_, ?_, ?_, ?_⟩
  · exact supervisor_timeout_semantics.1 "a"
      { lines := [], eofTime := 5, exitTime := 5, exitCode := 0 } 1 rfl (by decide)
  · have h := supervisor_timeout_semantics.2.1 "a"
      { lines := [(9, JsonLine.malformed "x"), (18, JsonLine.malformed "y")],
        eofTime := 20, exitTime := 21, exitCode := 3 } 10
      { agent := "a", output := "", returncode := 3, elapsed := 21, error := none }
      (by decide) (by rfl)
    exact ⟨h.1, h.2.1, h.2.2.symm⟩
  · have h := supervisor_timeout_semantics.2.2.1 "a"
      { lines := [], eofTime := 100, exitTime := 100, exitCode := 0 } 1
      { agent := "a", output := "", returncode := 0, elapsed := 100, error := none }
      (by decide) (by rfl)
    exact ⟨h.1, h.2.1, h.2.2.symm⟩
  · exact supervisor_timeout_semantics.2.2.2 "a"
      { lines := [], eofTime := 0, exitTime := 5, exitCode := 7 } 2 (by decide)

/-! ### Concurrent supervisor (`run_parallel`, runner.py lines 439-526;
`_run_parallel_async`, runner.py lines 529-586)

`_run_parallel_async` launches one task per request and then calls
`await asyncio.gather(*task_list, ...)`: the gather future completes only
after EVERY task has finished, returning the per-task results in
`task_list` (input) order; only then does the `for task_obj, result_or_exc
in zip(...)` loop run `on_complete` for each result, still in input
order.  A batch is modelled by the completion time and result of each
run; `runParallelEmissions` gives the time at which each result reaches
the output channel together with its `agent_id` tag. -/

/-- Latest completion time of the batch (when `asyncio.gather` returns). -/
def maxCompletion (runs : List (Nat × AgentResult)) : Nat :=
  (runs.map (·.1)).foldr max 0

/-- The `on_complete` calls made after `gather` returns: one emission per
run, in input order, each tagged `agentId` and stamped with the emission
time `tEmit`. -/
def gatherEmit (tEmit : Nat) : Nat → List (Nat × AgentResult) →
    List (Nat × String × AgentResult)
  | _, [] => []
  | idx, (_, r) :: rest => (tEmit, agentId r.agent idx, r) :: gatherEmit tEmit (idx + 1) rest

/-- When and how `_run_parallel_async` emits each run's result: every
emission happens at `maxCompletion runs` — after the whole batch — in
input order. -/
def runParallelEmissions (runs : List (Nat × AgentResult)) :
    List (Nat × String × AgentResult) :=
  gatherEmit (maxCompletion runs) 0 runs

/-- The list `_run_parallel_async` returns (and `all_results` collects):
the run results in input order. -/
def runParallelResults (runs : List (Nat × AgentResult)) : List AgentResult :=
  runs.map (·.2)

/-- C2: the claim fails on the code.  Two runs, the first completing at
time 5 and the second at time 1: `asyncio.gather` returns only at time 5,
so the second run's result is emitted at time 5 — after its sibling has
completed — not at its own completion time 1; emission order is input
order, not completion order.  (The final returned collection does
preserve input-pair order.)  This contradicts the `on_result` callback's
own doc string, "Handle result as soon as agent completes". -/
theorem gather_defers_emissions_bug :
    runParallelEmissions
        [(5, { agent := "alpha", output := "a", returncode := 0,
               elapsed := 5, error := none }),
         (1, { agent := "beta", output := "b", returncode := 0,
               elapsed := 1, error := none })]
      = [(5, agentId "alpha" 0,
          { agent := "alpha", output := "a", returncode := 0,
            elapsed := 5, error := none }),
         (5, agentId "beta" 1,
          { agent := "beta", output := "b", returncode := 0,
            elapsed := 1, error := none })]
    ∧ (5 : Nat) ≠ 1
    ∧ runParallelResults
        [(5, { agent := "alpha", output := "a", returncode := 0,
               elapsed := 5, error := none }),
         (1, { agent := "beta", output := "b", returncode := 0,
               elapsed := 1, error := none })]
      = [{ agent := "alpha", output := "a", returncode := 0,
           elapsed := 5, error := none },
         { agent := "beta", output := "b", returncode := 0,
           elapsed := 1, error := none }] := by
  refine ⟨rfl, by decide, rfl⟩

/-! ### Batch construction and aggregation (`run_parallel`) -/

/-- The outcome of `run_parallel`: its exit status and the requests that
were actually handed to the launch phase (empty when the batch was
rejected before any subprocess started). -/
structure ParallelOutcome where
  status : Int
  launched : List (String × String)
deriving DecidableEq, Repr

/-- The request-construction loop of `run_parallel` (lines 450-465):
parse each pair and look the agent up (`find` models `find_agent`
succeeding or not); the first failure rejects the whole batch (`none`). -/
def buildRequests (find : String → Bool) : List String →
    Option (List (String × String))
  | [] => some []
  | p :: rest =>
    match parse_agent_task_pair p with
    | .error _ => none
    | .ok (a, t) =>
      if find a then (buildRequests find rest).map ((a, t) :: ·) else none

/-- The per-request results delivered by `asyncio.gather` in input order;
`runOf` models the outcome of the `idx`-th supervised run (exceptions are
already folded into an `AgentResult` with `returncode = 1` by
`_run_parallel_async`). -/
def resultsOf (runOf : Nat → String × String → AgentResult) :
    Nat → List (String × String) → List AgentResult
  | _, [] => []
  | i, r :: rest => runOf i r :: resultsOf runOf (i + 1) rest

/-- Python `max(iterable, default=d)`: the true maximum for a non-empty
list (no floor at `d`), `d` only when the list is empty. -/
def pyMax (d : Int) : List Int → Int
  | [] => d
  | x :: xs => xs.foldl max x

/-- `run_parallel` (runner.py lines 439-526): reject the batch (status 1,
nothing launched) if any pair fails to parse or any agent is unknown, or
if no pairs were given; otherwise launch every request and return the
`max` of the individual return codes. -/
def run_parallel (find : String → Bool)
    (runOf : Nat → String × String → AgentResult)
    (pairs : List String) : ParallelOutcome :=
  match buildRequests find pairs with
  | none => { status := 1, launched := [] }
  | some reqs =>
    if reqs.isEmpty then { status := 1, launched := [] }
    else
      { status := pyMax 0 ((resultsOf runOf 0 reqs).map (·.returncode))
        launched := reqs }

/-- A pair on which request construction fails: it does not parse, or its
agent is not found. -/
def badPair (find : String → Bool) (p : String) : Bool :=
  match parse_agent_task_pair p with
  | .error _ => true
  | .ok (a, _) => !find a

theorem buildRequests_eq_none_of_bad (find : String → Bool) :
    ∀ pairs : List String, (∃ p ∈ pairs, badPair find p = true) →
      buildRequests find pairs = none := by
  intro pairs
  induction pairs with
  | nil => intro ⟨p, hp, _⟩; cases hp
  | cons q rest ih =>
    intro ⟨p, hp, hbad⟩
    rcases List.mem_cons.mp hp with heq | hmem
    · subst heq
      unfold badPair at hbad
      unfold buildRequests
      match hparse : parse_agent_task_pair p with
      | .error e => rfl
      | .ok (a, t) =>
        rw [hparse] at hbad
        simp only [Bool.not_eq_true'] at hbad
        show (if find a = true then
            Option.map ((a, t) :: ·) (buildRequests find rest) else none) = none
        rw [if_neg (by rw [hbad]; exact Bool.noConfusion)]
    · unfold buildRequests
      match hparse : parse_agent_task_pair q with
      | .error e => rfl
      | .ok (a, t) =>
        show (if find a = true then
            Option.map ((a, t) :: ·) (buildRequests find rest) else none) = none
        by_cases hf : find a
        · rw [if_pos hf, ih ⟨p, hmem, hbad⟩]
          rfl
        · rw [if_neg hf]

/-- C5: if pair parsing or agent lookup fails for any entry of the batch,
`run_parallel` rejects the whole batch with status 1 and launches no
request at all — request construction runs to completion (or fails)
before any subprocess is started. -/
theorem run_parallel_atomic_reject (find : String → Bool)
    (runOf : Nat → String × String → AgentResult) (pairs : List String)
    (h : ∃ p ∈ pairs, badPair find p = true) :
    run_parallel find runOf pairs = { status := 1, launched := [] } := by
  unfold run_parallel
  rw [buildRequests_eq_none_of_bad find pairs h]

/-- C5 (witness): a batch whose second pair names an invalid agent is
rejected atomically even though its first pair is fine and every agent
lookup would succeed. -/
theorem run_parallel_atomic_reject_witness :
    run_parallel (fun _ => true)
        (fun _ _ => { agent := "x", output := "", returncode := 0,
                      elapsed := 0, error := none })
        ["coder:fix the bug", "bad/agent:task"]
      = { status := 1, launched := [] } :=
  run_parallel_atomic_reject (fun _ => true)
    (fun _ _ => { agent := "x", output := "", returncode := 0,
                  elapsed := 0, error := none })
    ["coder:fix the bug", "bad/agent:task"]
    ⟨"bad/agent:task", by decide, by rfl⟩

/-- C4 (counterexample): the empty batch.  All of its (zero) requests
parse and resolve successfully, and it has no results, so the claim says
the aggregate status is 0; but `run_parallel` rejects an empty request
list with status 1 before the aggregation step is ever reached. -/
theorem run_parallel_empty_batch_counterexample :
    (run_parallel (fun _ => true)
        (fun _ _ => { agent := "x", output := "", returncode := 0,
                      elapsed := 0, error := none }) []).status = 1
    ∧ (run_parallel (fun _ => true)
        (fun _ _ => { agent := "x", output := "", returncode := 0,
                      elapsed := 0, error := none }) []).status ≠ 0 := by
  exact ⟨rfl, by decide⟩

/-- C4 (amended): for every NON-EMPTY batch whose requests all parse and
resolve successfully, `run_parallel` launches all of them and returns the
maximum of the individual runs' return codes (`max` with no floor — a
batch of all-negative codes aggregates to a negative status); the empty
batch is instead rejected with status 1. -/
theorem run_parallel_aggregate_max (find : String → Bool)
    (runOf : Nat → String × String → AgentResult)
    (pairs : List String) (reqs : List (String × String))
    (h1 : buildRequests find pairs = some reqs) (h2 : pairs ≠ []) :
    (run_parallel find runOf pairs).status
        = pyMax 0 ((resultsOf runOf 0 reqs).map (·.returncode))
      ∧ (run_parallel find runOf pairs).launched = reqs := by
  have hne : reqs.isEmpty = false := by
    match pairs with
    | [] => exact absurd rfl h2
    | q :: rest =>
      unfold buildRequests at h1
      match hparse : parse_agent_task_pair q with
      | .error e => rw [hparse] at h1; exact Option.noConfusion h1
      | .ok (a, t) =>
        rw [hparse] at h1
        have h1b : (if find a = true then
            Option.map ((a, t) :: ·) (buildRequests find rest) else none)
            = some reqs := h1
        by_cases hf : find a
        · rw [if_pos hf] at h1b
          match hrest : buildRequests find rest with
          | none => rw [hrest] at h1b; exact Option.noConfusion h1b
          | some rs =>
            rw [hrest] at h1b
            have := Option.some.inj h1b
            rw [← this]
            rfl
        · rw [if_neg hf] at h1b; exact Option.noConfusion h1b
  unfold run_parallel
  rw [h1]
  simp only [hne, Bool.false_eq_true, if_false]
  refine ⟨?_, ?_⟩ <;> first | rfl | trivial

/-- C4 (witness): the spec's example — three requests whose runs return
codes 0, -1 and 2 aggregate to exit status 2, and all three requests were
launched. -/
theorem run_parallel_aggregate_max_witness :
    (run_parallel (fun _ => true)
        (fun i _ => { agent := "x", output := "", elapsed := 0, error := none,
                      returncode := if i = 0 then 0 else if i = 1 then -1 else 2 })
        ["a:x", "b:y", "c:z"]).status = 2 := by
  have h := run_parallel_aggregate_max (fun _ => true)
    (fun i _ => { agent := "x", output := "", elapsed := 0, error := none,
                  returncode := if i = 0 then 0 else if i = 1 then -1 else 2 })
    ["a:x", "b:y", "c:z"] [("a", "x"), ("b", "y"), ("c", "z")]
    (by rfl) (by decide)
  exact h.1.trans (by decide)

end Subspace
